import Mathlib

/-!
# Energy Readings Pipeline — verification of the processing service

Shallow embedding of `src/processing-service/main.py` (and the small part of
`src/ingestion-api/main.py` the claims touch).  Python floats appearing as
sorted-set scores and power values are modelled as exact rationals (`ℚ`);
within the ranges exercised here the float operations are exact, and the
float rounding of `datetime.timestamp()` is monotone, so order and equality
statements transfer.  Redis is the external store; its sorted sets are
modelled per the spec's §3 description of the index primitive (members
unique, ordered by score, ties stable in insertion order).
-/

namespace EnergyPipeline

/-! ## Timestamp parsing and scoring

Embeds `_timestamp_to_score` (processing-service `main.py`, lines 52–58):
`datetime.fromisoformat(ts.replace("Z", "+00:00")).timestamp()` with a
fallback of `0.0` on `ValueError`/`AttributeError`.  `fromisoformat` is
modelled on the subset of ISO-8601 the pipeline produces:
`YYYY-MM-DD[<sep>HH:MM[:SS[.ffff…]]][±HH:MM]`, with full calendar
validation.  Naive datetimes (no UTC offset) are converted by
`timestamp()` using the host's local timezone; that timezone is modelled
as a fixed UTC offset `off` (in seconds), carried as a parameter. -/

/-- One parsed datetime value: calendar fields plus an optional UTC offset
in seconds (`none` = naive). -/
structure DateTimeV where
  year : ℕ
  month : ℕ
  day : ℕ
  hour : ℕ
  minute : ℕ
  second : ℕ
  microsecond : ℕ
  tzOffsetSeconds : Option ℤ
deriving DecidableEq, Repr

/-- `ts.replace("Z", "+00:00")`: replace every occurrence of the character
`Z` (the needle is a single character, so a character-wise expansion is
exact). -/
def replaceZ (s : String) : String :=
  ⟨s.data.flatMap fun c => if c = 'Z' then "+00:00".data else [c]⟩

/-- Numeric value of a decimal digit character, if it is one. -/
def digitVal (c : Char) : Option ℕ :=
  if '0' ≤ c ∧ c ≤ '9' then some (c.toNat - 48) else none

/-- Read exactly two decimal digits. -/
def read2 : List Char → Option (ℕ × List Char)
  | c₁ :: c₂ :: rest => do
    let d₁ ← digitVal c₁
    let d₂ ← digitVal c₂
    pure (d₁ * 10 + d₂, rest)
  | _ => none

/-- Read exactly four decimal digits. -/
def read4 : List Char → Option (ℕ × List Char)
  | c₁ :: c₂ :: c₃ :: c₄ :: rest => do
    let d₁ ← digitVal c₁
    let d₂ ← digitVal c₂
    let d₃ ← digitVal c₃
    let d₄ ← digitVal c₄
    pure (((d₁ * 10 + d₂) * 10 + d₃) * 10 + d₄, rest)
  | _ => none

/-- Split off the maximal run of leading decimal digits. -/
def takeDigits : List Char → List ℕ × List Char
  | [] => ([], [])
  | c :: rest =>
    match digitVal c with
    | some d => let (ds, r) := takeDigits rest; (d :: ds, r)
    | none => ([], c :: rest)

/-- Microseconds from a fractional-seconds digit string: the first six
digits, right-padded with zeros (further digits are truncated, as
`fromisoformat` does). -/
def microOfDigits (ds : List ℕ) : ℕ :=
  (ds.take 6 ++ List.replicate (6 - ds.length) 0).foldl (fun a d => a * 10 + d) 0

/-- Gregorian leap year. -/
def isLeap (y : ℕ) : Bool :=
  y % 4 = 0 ∧ (y % 100 ≠ 0 ∨ y % 400 = 0)

/-- Number of days in a month (`y`, `m` assumed 1-based). -/
def daysInMonth (y m : ℕ) : ℕ :=
  if m = 2 then (if isLeap y then 29 else 28)
  else if m = 4 ∨ m = 6 ∨ m = 9 ∨ m = 11 then 30
  else 31

/-- Parse `HH:MM[:SS[.ffff…]]`, returning `(hour, minute, second, µs, rest)`. -/
def parseTime (l : List Char) : Option (ℕ × ℕ × ℕ × ℕ × List Char) := do
  let (h, l) ← read2 l
  match l with
  | ':' :: l => do
    let (mi, l) ← read2 l
    match l with
    | ':' :: l => do
      let (s, l) ← read2 l
      match l with
      | '.' :: l =>
        let (ds, l) := takeDigits l
        if ds.isEmpty then none else pure (h, mi, s, microOfDigits ds, l)
      | _ => pure (h, mi, s, 0, l)
    | _ => pure (h, mi, 0, 0, l)
  | _ => none

/-- Parse a trailing UTC offset `±HH:MM` (must consume the rest of the
input); `fromisoformat` requires the offset magnitude to stay below 24
hours. -/
def parseOffset (l : List Char) : Option ℤ := do
  let (sign, l) ← match l with
    | '+' :: l => some ((1 : ℤ), l)
    | '-' :: l => some ((-1 : ℤ), l)
    | _ => none
  let (oh, l) ← read2 l
  match l with
  | ':' :: l => do
    let (om, l) ← read2 l
    if l.isEmpty ∧ oh ≤ 23 ∧ om ≤ 59 then
      pure (sign * ((oh : ℤ) * 3600 + (om : ℤ) * 60))
    else none
  | _ => none

/-- `datetime.fromisoformat` on the subset of ISO-8601 the pipeline uses:
`YYYY-MM-DD`, optionally a one-character separator and `HH:MM[:SS[.f…]]`,
optionally `±HH:MM`.  Calendar and clock fields are validated (year ≥ 1,
month 1–12, valid day of month, hour ≤ 23, minute, second ≤ 59); any
violation or leftover input is a `ValueError`, i.e. `none`. -/
def fromisoformat (s : String) : Option DateTimeV := do
  let (y, l) ← read4 s.data
  match l with
  | '-' :: l =>
    let (mo, l) ← read2 l
    match l with
    | '-' :: l => do
      let (d, l) ← read2 l
      if ¬(1 ≤ y ∧ 1 ≤ mo ∧ mo ≤ 12 ∧ 1 ≤ d ∧ d ≤ daysInMonth y mo) then none
      else
        match l with
        | [] => pure ⟨y, mo, d, 0, 0, 0, 0, none⟩
        | _sep :: l => do
          let (h, mi, sec, us, l) ← parseTime l
          if ¬(h ≤ 23 ∧ mi ≤ 59 ∧ sec ≤ 59) then none
          else
            match l with
            | [] => pure ⟨y, mo, d, h, mi, sec, us, none⟩
            | _ => do
              let o ← parseOffset l
              pure ⟨y, mo, d, h, mi, sec, us, some o⟩
    | _ => none
  | _ => none

/-- Days from the Unix epoch to the civil date `y-m-d` (proleptic
Gregorian; Hinnant's `days_from_civil`, specialised to `y ≥ 1` so every
intermediate quantity is a natural number). -/
def epochDays (y m d : ℕ) : ℤ :=
  let y' := if m ≤ 2 then y - 1 else y
  let era := y' / 400
  let yoe := y' % 400
  let mp := (m + 9) % 12
  let doy := (153 * mp + 2) / 5 + (d - 1)
  let doe := yoe * 365 + yoe / 4 - yoe / 100 + doy
  (↑(era * 146097 + doe) : ℤ) - 719468

/-- Seconds from the Unix epoch to the datetime's wall-clock reading
(no timezone applied). -/
def wallSeconds (dt : DateTimeV) : ℚ :=
  (epochDays dt.year dt.month dt.day : ℚ) * 86400
    + dt.hour * 3600 + dt.minute * 60 + dt.second
    + (dt.microsecond : ℚ) / 1000000

/-- `datetime.timestamp()`: epoch seconds.  An aware datetime subtracts its
own UTC offset; a naive one subtracts the host's local offset `off`
(seconds east of UTC). -/
def dtTimestamp (off : ℚ) (dt : DateTimeV) : ℚ :=
  wallSeconds dt -
    (match dt.tzOffsetSeconds with
     | some o => (o : ℚ)
     | none => off)

/-- `_timestamp_to_score` (lines 52–58): `Z` → `+00:00`, parse, convert to
epoch seconds; `0.0` on any parse failure. -/
def timestamp_to_score (off : ℚ) (ts : String) : ℚ :=
  match fromisoformat (replaceZ ts) with
  | some dt => dtTimestamp off dt
  | none => 0

/-! ## Python `float(str)` on decimal literals

`process_reading` calls `float(data.get("power_reading", 0))`.  A missing
field yields the integer default `0`; a present field is a string, parsed
as a Python float literal — `ValueError` if it is not one.  Modelled on
decimal literals `[+-]? (digits [. digits?] | . digits) ([eE] [+-]? digits)?`
(the subset the pipeline produces). -/

/-- Parse a decimal float literal to an exact rational; `none` models
`ValueError`. -/
def pyFloatLit (s : String) : Option ℚ := do
  let (sign, l) ← match s.data with
    | '+' :: l => some ((1 : ℚ), l)
    | '-' :: l => some ((-1 : ℚ), l)
    | l => some ((1 : ℚ), l)
  let (ip, l) := takeDigits l
  let (fp, l) ← match l with
    | '.' :: l => let (fp, l) := takeDigits l; some (fp, l)
    | l => some (([] : List ℕ), l)
  if ip.isEmpty ∧ fp.isEmpty then none
  else
    let mant : ℚ := (ip.foldl (fun a d => a * 10 + d) 0 : ℕ)
      + (fp.foldl (fun a d => a * 10 + d) 0 : ℕ) / (10 : ℚ) ^ fp.length
    match l with
    | [] => pure (sign * mant)
    | e :: l =>
      if e = 'e' ∨ e = 'E' then do
        let (esign, l) ← match l with
          | '+' :: l => some (true, l)
          | '-' :: l => some (false, l)
          | l => some (true, l)
        let (ed, l) := takeDigits l
        if ed.isEmpty ∨ ¬l.isEmpty then none
        else
          let ex := ed.foldl (fun a d => a * 10 + d) 0
          pure (sign * mant * (if esign then (10 : ℚ) ^ ex else ((10 : ℚ) ^ ex)⁻¹))
      else none

/-! ## The reading processor -/

/-- A Redis stream message's field table, in delivery order.  `fieldGet`
is `dict.get`: the value at the first matching key, if any. -/
abbrev Fields := List (String × String)

/-- `data.get(k)`. -/
def fieldGet (data : Fields) (k : String) : Option String :=
  match List.lookup k data with
  | some v => some v
  | none => none

/-- The record `process_reading` builds and serializes (lines 80–88 of the
processing service); field names are the JSON keys used there. -/
structure StoredRecord where
  stream_id : String
  site_id : String
  device_id : Option String
  power_reading : ℚ
  timestamp : Option String
  ingested_at : Option String
deriving DecidableEq, Repr

/-- The sorted-set key `site:{site_id}:readings`. -/
def siteKey (site_id : String) : String :=
  "site:" ++ site_id ++ ":readings"

/-- `process_reading(stream_id, data)` (lines 61–95).  Returns
`.ok none` when the reading is skipped (absent or empty `site_id`),
`.ok (some (key, record, score))` when a record is to be stored, and
`.error ()` when the body raises (only `float(...)` can, on an
unparseable `power_reading`). -/
def process_reading (off : ℚ) (stream_id : String) (data : Fields) :
    Except Unit (Option (String × StoredRecord × ℚ)) :=
  match fieldGet data "site_id" with
  | none => .ok none
  | some s =>
    if s = "" then .ok none
    else
      match (match fieldGet data "power_reading" with
             | none => some (0 : ℚ)
             | some p => pyFloatLit p) with
      | none => .error ()
      | some pw =>
        let reading : StoredRecord :=
          { stream_id := stream_id
            site_id := s
            device_id := fieldGet data "device_id"
            power_reading := pw
            timestamp := fieldGet data "timestamp"
            ingested_at := fieldGet data "ingested_at" }
        let score := timestamp_to_score off
          (match fieldGet data "timestamp" with | some t => t | none => "")
        .ok (some (siteKey s, reading, score))

/-! ## The site index store

Redis sorted sets, modelled per §3 of the design: a set of unique members
each carrying a score; `ZADD` inserts a new member or updates the score of
an existing one (it never duplicates a member); `ZRANGE key 0 -1` lists
members in ascending score order, ties stable in insertion order. -/

/-- One site's sorted set: members with scores, in insertion order. -/
abbrev ZSet := List (StoredRecord × ℚ)

/-- `ZADD key {member: score}`: update the member's score in place if the
member is present, otherwise append it (a sorted set never holds the same
member twice). -/
def zadd : ZSet → StoredRecord → ℚ → ZSet
  | [], member, score => [(member, score)]
  | (r', sc') :: rest, member, score =>
    if r' = member then (member, score) :: rest
    else (r', sc') :: zadd rest member score

/-- Non-strict score order on sorted-set entries. -/
def scoreLE (p q : StoredRecord × ℚ) : Prop := p.2 ≤ q.2

instance : DecidableRel scoreLE := fun p q => inferInstanceAs (Decidable (p.2 ≤ q.2))

instance : IsTotal (StoredRecord × ℚ) scoreLE := ⟨fun p q => le_total p.2 q.2⟩

instance : IsTrans (StoredRecord × ℚ) scoreLE := ⟨fun _ _ _ h h' => le_trans h h'⟩

/-- `ZRANGE key 0 -1 WITHSCORES`: all entries in ascending score order
(stable sort, so ties keep insertion order). -/
def zrangeAll (z : ZSet) : List (StoredRecord × ℚ) :=
  List.insertionSort scoreLE z

/-- The whole store: one sorted set per key. -/
abbrev Store := List (String × ZSet)

/-- The set stored at a key (a missing key reads as the empty set). -/
def storeGet : Store → String → ZSet
  | [], _ => []
  | (k', z) :: rest, k => if k' = k then z else storeGet rest k

/-- `ZADD` at the store level: update the set at the key, creating the key
if it is new. -/
def storeZadd : Store → String → StoredRecord → ℚ → Store
  | [], k, member, score => [(k, zadd [] member score)]
  | (k', z) :: rest, k, member, score =>
    if k' = k then (k', zadd z member score) :: rest
    else (k', z) :: storeZadd rest k member score

def emptyStore : Store := []

/-! ## The stream consumer

One pass of the body of `consume_stream`'s `while True:` loop
(lines 108–141).  The external `XREADGROUP` claim call is summarised by
its outcome: a batch of messages (already flattened across streams), a
`redis.ConnectionError`, or any other exception.  The loop's observable
actions are traced as events. -/

/-- One claimed stream message: its Redis stream entry id and its fields. -/
structure Msg where
  stream_id : String
  fields : Fields
deriving DecidableEq, Repr

/-- The outcome of the blocking `xreadgroup` claim call. -/
inductive ClaimOutcome
  | ok (msgs : List Msg)
  | connError
  | otherError

/-- Observable consumer actions: a `ZADD` into a site index, an `XACK`,
or a backoff sleep (seconds). -/
inductive Event
  | append (key : String) (member : StoredRecord) (score : ℚ)
  | ack (stream_id : String)
  | sleep (seconds : ℕ)
deriving DecidableEq, Repr

/-- The inner per-message `try` block (lines 124–133): process the
reading, then acknowledge; an exception from processing skips the
acknowledgment and leaves the message pending. -/
def handleMessage (off : ℚ) (m : Msg) : List Event :=
  match process_reading off m.stream_id m.fields with
  | .error _ => []
  | .ok none => [.ack m.stream_id]
  | .ok (some (k, r, sc)) => [.append k r sc, .ack m.stream_id]

/-- One iteration of the consumer loop, by claim outcome: dispatch each
claimed message, or back off 5 s on a `ConnectionError`, 1 s on any other
exception (lines 135–141). -/
def consumeIteration (off : ℚ) : ClaimOutcome → List Event
  | .ok msgs => msgs.flatMap (handleMessage off)
  | .connError => [.sleep 5]
  | .otherError => [.sleep 1]

/-- The loop never exits: after any iteration — error outcomes included —
it runs the next claim.  A finite prefix of the run is the concatenation
of its iterations. -/
def consumeRun (off : ℚ) (outcomes : List ClaimOutcome) : List Event :=
  outcomes.flatMap (consumeIteration off)

/-- Effect of one event on the site index store (acknowledgments and
sleeps do not touch it). -/
def applyEvent (st : Store) : Event → Store
  | .append k member score => storeZadd st k member score
  | .ack _ => st
  | .sleep _ => st

/-- Effect of an event trace on the store. -/
def applyEvents (st : Store) (es : List Event) : Store :=
  es.foldl applyEvent st

/-- The stream ids acknowledged in a trace. -/
def acksOf (es : List Event) : List String :=
  es.filterMap fun e => match e with | .ack i => some i | _ => none

/-- Whether an event is an index append. -/
def isAppend : Event → Bool
  | .append _ _ _ => true
  | _ => false

/-! ## The read-side site-history query -/

/-- Outcome of `GET /sites/{site_id}/readings`. -/
inductive ReadResponse
  | ok (site_id : String) (readings : List StoredRecord)
  | httpError (status : Nat) (detail : String)
deriving DecidableEq, Repr

/-- `get_site_readings` (lines 189–201): `ZRANGE key 0 -1`, deserialize,
and return `{site_id, readings}`; a `redis.ConnectionError` becomes an
HTTP 503 instead.  `reachable` abstracts whether the store answers. -/
def get_site_readings (st : Store) (reachable : Bool) (site_id : String) :
    ReadResponse :=
  if reachable then
    .ok site_id ((zrangeAll (storeGet st (siteKey site_id))).map Prod.fst)
  else
    .httpError 503 "Redis connection error"

/-! ## Derived notions and concrete scenario inputs -/

/-- The UTC instant (epoch seconds) a timestamp string denotes, when it
parses with an explicit UTC offset (timezone-aware after the `Z`
replacement); `none` for naive or unparseable strings. -/
def awareInstant (ts : String) : Option ℚ :=
  match fromisoformat (replaceZ ts) with
  | some dt =>
    match dt.tzOffsetSeconds with
    | some _ => some (dtTimestamp 0 dt)
    | none => none
  | none => none

/-- The spec §8 end-to-end scenario message. -/
def msgScenario : Msg :=
  ⟨"1705312200000-0",
   [("site_id", "site-001"), ("device_id", "meter-42"),
    ("power_reading", "1500.5"), ("timestamp", "2024-01-15T10:30:00Z"),
    ("ingested_at", "2024-01-15T10:30:00.123456")]⟩

/-- The record `process_reading` builds for `msgScenario`. -/
def recScenario : StoredRecord :=
  { stream_id := "1705312200000-0"
    site_id := "site-001"
    device_id := some "meter-42"
    power_reading := 3001 / 2
    timestamp := some "2024-01-15T10:30:00Z"
    ingested_at := some "2024-01-15T10:30:00.123456" }

/-- A message whose event time is one day before the Unix epoch (its score
is negative). -/
def msgPreEpoch : Msg :=
  ⟨"1-0", [("site_id", "s"), ("timestamp", "1969-12-31T00:00:00Z")]⟩

/-- A message with a malformed event time (its score is `0.0`). -/
def msgMalformed : Msg :=
  ⟨"2-0", [("site_id", "s"), ("timestamp", "garbage")]⟩

/-- A message whose `power_reading` field is present but not a number. -/
def msgBadPower : Msg :=
  ⟨"3-0", [("site_id", "s"), ("power_reading", "abc")]⟩

/-- The record `process_reading` builds for `msgPreEpoch`. -/
def recPreEpoch : StoredRecord :=
  { stream_id := "1-0", site_id := "s", device_id := none,
    power_reading := 0, timestamp := some "1969-12-31T00:00:00Z",
    ingested_at := none }

/-- The record `process_reading` builds for `msgMalformed`. -/
def recMalformed : StoredRecord :=
  { stream_id := "2-0", site_id := "s", device_id := none,
    power_reading := 0, timestamp := some "garbage", ingested_at := none }

/-! ## Helper lemmas -/

/-- The score of a timezone-aware timestamp is its UTC instant, whatever
the host's local offset. -/
theorem score_of_aware (off : ℚ) (ts : String) (a : ℚ)
    (h : awareInstant ts = some a) : timestamp_to_score off ts = a := by
  unfold awareInstant at h
  unfold timestamp_to_score
  cases hp : fromisoformat (replaceZ ts) with
  | none => rw [hp] at h; exact absurd h (by simp)
  | some dt =>
    rw [hp] at h
    have h' : (match dt.tzOffsetSeconds with
      | some _ => some (dtTimestamp 0 dt)
      | none => none) = some a := h
    show dtTimestamp off dt = a
    cases ho : dt.tzOffsetSeconds with
    | none => rw [ho] at h'; exact absurd h' (by simp)
    | some o =>
      rw [ho] at h'
      simp only [Option.some.injEq] at h'
      subst h'
      simp [dtTimestamp, ho]

/-- An unparseable timestamp scores `0.0`. -/
theorem score_of_malformed (off : ℚ) (ts : String)
    (h : fromisoformat (replaceZ ts) = none) : timestamp_to_score off ts = 0 := by
  unfold timestamp_to_score
  rw [h]

/-- Successful processing of a stored reading makes the handler emit
exactly the append then the acknowledgment. -/
theorem handleMessage_of_success (off : ℚ) (m : Msg) (k : String)
    (r : StoredRecord) (sc : ℚ)
    (h : process_reading off m.stream_id m.fields = .ok (some (k, r, sc))) :
    handleMessage off m = [.append k r sc, .ack m.stream_id] := by
  unfold handleMessage
  rw [h]

/-- A message with a different stream id contributes no acknowledgment of
`i` to the trace. -/
theorem filter_ack_handleMessage_ne (off : ℚ) (m' : Msg) (i : String)
    (h : m'.stream_id ≠ i) :
    (handleMessage off m').filter (fun e => e == Event.ack i) = [] := by
  unfold handleMessage
  cases hE : process_reading off m'.stream_id m'.fields with
  | error e => simp
  | ok o =>
    cases o with
    | none => simp [h]
    | some trip =>
      obtain ⟨k, r, sc⟩ := trip
      simp [h]

/-- A batch of messages none of which carries stream id `i` contributes no
acknowledgment of `i`. -/
theorem filter_ack_flatMap_nil (off : ℚ) (i : String) (msgs : List Msg)
    (h : ∀ m' ∈ msgs, m'.stream_id ≠ i) :
    ((msgs.flatMap (handleMessage off)).filter (fun e => e == Event.ack i)) = [] := by
  induction msgs with
  | nil => rfl
  | cons m' rest ih =>
    rw [List.flatMap_cons, List.filter_append,
      filter_ack_handleMessage_ne off m' i (h m' (by simp)),
      ih (fun x hx => h x (by simp [hx]))]
    rfl

/-- `ZADD` of a member already present with the same score is a no-op at
the set level. -/
theorem zadd_idem (member : StoredRecord) (score : ℚ) :
    ∀ z : ZSet, zadd (zadd z member score) member score = zadd z member score := by
  intro z
  induction z with
  | nil => simp [zadd]
  | cons e rest ih =>
    obtain ⟨r', sc'⟩ := e
    by_cases h : r' = member
    · simp [zadd, h]
    · simp [zadd, h, ih]

/-- `ZADD` of a member already present with the same score is a no-op at
the store level. -/
theorem storeZadd_idem (k : String) (member : StoredRecord) (score : ℚ) :
    ∀ st : Store, storeZadd (storeZadd st k member score) k member score
      = storeZadd st k member score := by
  intro st
  induction st with
  | nil => simp [storeZadd, zadd_idem]
  | cons e rest ih =>
    obtain ⟨k', z⟩ := e
    by_cases h : k' = k
    · simp [storeZadd, h, zadd_idem]
    · simp [storeZadd, h, ih]

/-! ## Concrete-scenario evaluations -/

/-- `float("1500.5")` is exactly `3001/2`. -/
theorem pyFloatLit_scenario : pyFloatLit "1500.5" = some (3001 / 2 : ℚ) := by
  have h : "1500.5".data = ['1', '5', '0', '0', '.', '5'] := rfl
  simp [pyFloatLit, h, takeDigits, digitVal]
  norm_num

/-- The scenario event time scores to the epoch seconds of
2024-01-15 10:30 UTC, whatever the local offset. -/
theorem score_scenario (off : ℚ) :
    timestamp_to_score off "2024-01-15T10:30:00Z" = 1705314600 := by
  have h : fromisoformat (replaceZ "2024-01-15T10:30:00Z")
      = some ⟨2024, 1, 15, 10, 30, 0, 0, some 0⟩ := rfl
  have h2 : epochDays 2024 1 15 = 19737 := rfl
  simp [timestamp_to_score, h, dtTimestamp, wallSeconds, h2]
  norm_num

/-- Processing the scenario message stores `recScenario` under the
scenario site's key with the event-time score. -/
theorem process_msgScenario (off : ℚ) :
    process_reading off msgScenario.stream_id msgScenario.fields
      = .ok (some ("site:site-001:readings", recScenario, 1705314600)) := by
  have hid : msgScenario.stream_id = "1705312200000-0" := rfl
  have hsite : fieldGet msgScenario.fields "site_id" = some "site-001" := rfl
  have hpow : fieldGet msgScenario.fields "power_reading" = some "1500.5" := rfl
  have hts : fieldGet msgScenario.fields "timestamp"
      = some "2024-01-15T10:30:00Z" := rfl
  have hdev : fieldGet msgScenario.fields "device_id" = some "meter-42" := rfl
  have hing : fieldGet msgScenario.fields "ingested_at"
      = some "2024-01-15T10:30:00.123456" := rfl
  simp [process_reading, hid, hsite, hpow, hts, hdev, hing, pyFloatLit_scenario,
    score_scenario, siteKey, recScenario]

/-- A timestamp one day before the epoch denotes the instant `-86400`. -/
theorem awareInstant_preEpoch :
    awareInstant "1969-12-31T00:00:00Z" = some (-86400) := by
  have h : fromisoformat (replaceZ "1969-12-31T00:00:00Z")
      = some ⟨1969, 12, 31, 0, 0, 0, 0, some 0⟩ := rfl
  have h2 : epochDays 1969 12 31 = -1 := rfl
  simp [awareInstant, h, dtTimestamp, wallSeconds, h2]

/-- A timestamp one day before the epoch scores `-86400`. -/
theorem score_preEpoch (off : ℚ) :
    timestamp_to_score off "1969-12-31T00:00:00Z" = -86400 :=
  score_of_aware off _ _ awareInstant_preEpoch

/-- Processing the pre-epoch message stores `recPreEpoch` with a negative
score. -/
theorem process_msgPreEpoch (off : ℚ) :
    process_reading off msgPreEpoch.stream_id msgPreEpoch.fields
      = .ok (some ("site:s:readings", recPreEpoch, -86400)) := by
  have hid : msgPreEpoch.stream_id = "1-0" := rfl
  have hsite : fieldGet msgPreEpoch.fields "site_id" = some "s" := rfl
  have hpow : fieldGet msgPreEpoch.fields "power_reading" = none := rfl
  have hts : fieldGet msgPreEpoch.fields "timestamp"
      = some "1969-12-31T00:00:00Z" := rfl
  have hdev : fieldGet msgPreEpoch.fields "device_id" = none := rfl
  have hing : fieldGet msgPreEpoch.fields "ingested_at" = none := rfl
  simp [process_reading, hid, hsite, hpow, hts, hdev, hing, score_preEpoch,
    siteKey, recPreEpoch]

/-- Processing the malformed-timestamp message stores `recMalformed` with
score `0.0`. -/
theorem process_msgMalformed (off : ℚ) :
    process_reading off msgMalformed.stream_id msgMalformed.fields
      = .ok (some ("site:s:readings", recMalformed, 0)) := rfl

/-! ## The claims -/

/-- C5: a message whose `site_id` field is absent or empty is processed
without error and without touching any site index, and its handling still
emits the acknowledgment (a successfully handled no-op). -/
theorem claim_C5 (off : ℚ) (stream_id : String) (data : Fields) (st : Store)
    (h : fieldGet data "site_id" = none ∨ fieldGet data "site_id" = some "") :
    process_reading off stream_id data = .ok none
    ∧ handleMessage off ⟨stream_id, data⟩ = [.ack stream_id]
    ∧ (handleMessage off ⟨stream_id, data⟩).filter isAppend = []
    ∧ applyEvents st (handleMessage off ⟨stream_id, data⟩) = st
    ∧ acksOf (handleMessage off ⟨stream_id, data⟩) = [stream_id] := by
  have hp : process_reading off stream_id data = .ok none := by
    rcases h with h | h <;> simp [process_reading, h]
  have hh : handleMessage off ⟨stream_id, data⟩ = [.ack stream_id] := by
    simp [handleMessage, hp]
  exact ⟨hp, hh, by rw [hh]; rfl, by rw [hh]; rfl, by rw [hh]; rfl⟩

/-- C5 witness: the empty field table has no `site_id`; the message is a
no-op that is still acknowledged. -/
theorem claim_C5_witness :
    process_reading 0 "9-0" [] = .ok none
    ∧ handleMessage 0 ⟨"9-0", []⟩ = [.ack "9-0"] :=
  ⟨(claim_C5 0 "9-0" [] emptyStore (Or.inl rfl)).1,
   (claim_C5 0 "9-0" [] emptyStore (Or.inl rfl)).2.1⟩

/-- C6: the timestamp scoring function maps the `Z` and `+00:00` spellings
of 2024-01-15T10:30:00 UTC to the same positive score, maps the empty
string and a non-ISO string to `0.0`, and returns a value on every input
(it never raises). -/
theorem claim_C6 (off : ℚ) :
    timestamp_to_score off "2024-01-15T10:30:00Z"
        = timestamp_to_score off "2024-01-15T10:30:00+00:00"
    ∧ 0 < timestamp_to_score off "2024-01-15T10:30:00Z"
    ∧ 0 < timestamp_to_score off "2024-01-15T10:30:00+00:00"
    ∧ timestamp_to_score off "" = 0
    ∧ timestamp_to_score off "garbage" = 0
    ∧ ∀ ts : String, ∃ q : ℚ, timestamp_to_score off ts = q := by
  have h := score_scenario off
  have h2 : timestamp_to_score off "2024-01-15T10:30:00+00:00"
      = timestamp_to_score off "2024-01-15T10:30:00Z" := rfl
  refine ⟨rfl, ?_, ?_, rfl, rfl, fun ts => ⟨_, rfl⟩⟩
  · rw [h]; norm_num
  · rw [h2, h]; norm_num

/-- C8: a claim failure backs off (5 s for a connectivity fault, 1 s for
anything else) without acknowledging anything, without touching the store,
and without leaving the loop: the run continues with the next claim. -/
theorem claim_C8 (off : ℚ) (st : Store) (rest : List ClaimOutcome) :
    consumeIteration off .connError = [.sleep 5]
    ∧ consumeIteration off .otherError = [.sleep 1]
    ∧ acksOf (consumeIteration off .connError) = []
    ∧ acksOf (consumeIteration off .otherError) = []
    ∧ applyEvents st (consumeIteration off .connError) = st
    ∧ applyEvents st (consumeIteration off .otherError) = st
    ∧ consumeRun off (.connError :: rest) = Event.sleep 5 :: consumeRun off rest
    ∧ consumeRun off (.otherError :: rest) = Event.sleep 1 :: consumeRun off rest := by
  refine ⟨rfl, rfl, rfl, rfl, rfl, rfl, ?_, ?_⟩ <;>
    simp [consumeRun, consumeIteration]

/-- C9: the site-history query answers 503 (an error response, distinct
from any success response) when the store is unreachable, and answers
success with an empty readings list when the site has no history. -/
theorem claim_C9 (st : Store) (site_id : String)
    (h : storeGet st (siteKey site_id) = []) :
    get_site_readings st false site_id
        = .httpError 503 "Redis connection error"
    ∧ (∀ (s : String) (rs : List StoredRecord),
        (ReadResponse.httpError 503 "Redis connection error") ≠ .ok s rs)
    ∧ get_site_readings st true site_id = .ok site_id [] := by
  refine ⟨rfl, ?_, ?_⟩
  · intro s rs hk
    cases hk
  · simp [get_site_readings, h, zrangeAll]

/-- C9 witness: on the empty store, the unreachable path answers 503 and
the reachable path answers an empty success. -/
theorem claim_C9_witness :
    get_site_readings emptyStore true "site-001" = .ok "site-001" []
    ∧ get_site_readings emptyStore false "site-001"
        = .httpError 503 "Redis connection error" :=
  ⟨(claim_C9 emptyStore "site-001" rfl).2.2, (claim_C9 emptyStore "site-001" rfl).1⟩

/-- C1: a claimed message with a present, non-empty `site_id` whose
processing succeeds is handled by exactly one append to its site's index
followed by exactly one acknowledgment of its stream id; across the whole
iteration (stream ids being unique in a claimed batch) that id is
acknowledged exactly once. -/
theorem claim_C1 (off : ℚ) (msgs : List Msg) (m : Msg) (k : String)
    (r : StoredRecord) (sc : ℚ) (hm : m ∈ msgs)
    (hnd : (msgs.map Msg.stream_id).Nodup)
    (hsucc : process_reading off m.stream_id m.fields = .ok (some (k, r, sc))) :
    handleMessage off m = [.append k r sc, .ack m.stream_id]
    ∧ (handleMessage off m).filter isAppend = [.append k r sc]
    ∧ acksOf (handleMessage off m) = [m.stream_id]
    ∧ (consumeIteration off (.ok msgs)).filter
        (fun e => e == Event.ack m.stream_id) = [Event.ack m.stream_id] := by
  have h1 := handleMessage_of_success off m k r sc hsucc
  refine ⟨h1, by rw [h1]; rfl, by rw [h1]; rfl, ?_⟩
  obtain ⟨l₁, l₂, rfl⟩ := List.append_of_mem hm
  rw [List.map_append, List.map_cons] at hnd
  have hd := List.nodup_append.mp hnd
  have h₁ : ∀ m' ∈ l₁, m'.stream_id ≠ m.stream_id := by
    intro m' hm' heq
    exact hd.2.2 (heq ▸ List.mem_map_of_mem Msg.stream_id hm') (by simp)
  have h₂ : ∀ m' ∈ l₂, m'.stream_id ≠ m.stream_id := by
    intro m' hm' heq
    exact (List.nodup_cons.mp hd.2.1).1 (heq ▸ List.mem_map_of_mem Msg.stream_id hm')
  show ((l₁ ++ m :: l₂).flatMap (handleMessage off)).filter
      (fun e => e == Event.ack m.stream_id) = [Event.ack m.stream_id]
  rw [List.flatMap_append, List.flatMap_cons, List.filter_append,
    List.filter_append, filter_ack_flatMap_nil off _ l₁ h₁,
    filter_ack_flatMap_nil off _ l₂ h₂, h1]
  simp

/-- C1 witness: in the one-message batch of the spec scenario, the handler
appends the record and then acknowledges, and the iteration acknowledges
the id exactly once. -/
theorem claim_C1_witness :
    handleMessage 0 msgScenario
        = [.append "site:site-001:readings" recScenario 1705314600,
           .ack "1705312200000-0"]
    ∧ (consumeIteration 0 (.ok [msgScenario])).filter
        (fun e => e == Event.ack "1705312200000-0")
      = [Event.ack "1705312200000-0"] :=
  ⟨(claim_C1 0 [msgScenario] msgScenario "site:site-001:readings" recScenario
      1705314600 (by simp) (by simp) (process_msgScenario 0)).1,
   (claim_C1 0 [msgScenario] msgScenario "site:site-001:readings" recScenario
      1705314600 (by simp) (by simp) (process_msgScenario 0)).2.2.2⟩

/-- C2 counterexample: re-processing the spec scenario message (same
message id, same field values) leaves the site index with one entry for
it, not two — the serialized member is identical, so the sorted-set
insert deduplicates. -/
theorem claim_C2_counterexample :
    (storeGet (applyEvents (applyEvents emptyStore (handleMessage 0 msgScenario))
        (handleMessage 0 msgScenario)) "site:site-001:readings").length = 1
    ∧ (storeGet (applyEvents (applyEvents emptyStore (handleMessage 0 msgScenario))
        (handleMessage 0 msgScenario)) "site:site-001:readings").length ≠ 2 := by
  have h1 := handleMessage_of_success 0 msgScenario _ _ _ (process_msgScenario 0)
  rw [h1]
  simp [applyEvents, applyEvent, storeZadd, zadd, storeGet]

/-- C2 (amended): redelivery with identical field values is idempotent —
the second processing re-inserts the identical member, so the store is
unchanged and the site index holds exactly one entry for that record. -/
theorem claim_C2 (off : ℚ) (m : Msg) (k : String) (r : StoredRecord) (sc : ℚ)
    (st : Store)
    (hsucc : process_reading off m.stream_id m.fields = .ok (some (k, r, sc))) :
    applyEvents (applyEvents st (handleMessage off m)) (handleMessage off m)
      = applyEvents st (handleMessage off m)
    ∧ (storeGet (applyEvents (applyEvents emptyStore (handleMessage off m))
        (handleMessage off m)) k).countP (fun e => e.1 == r) = 1 := by
  have h1 := handleMessage_of_success off m k r sc hsucc
  rw [h1]
  constructor
  · simp [applyEvents, applyEvent, storeZadd_idem]
  · simp [applyEvents, applyEvent, storeZadd, zadd, storeGet]

/-- C2 witness: re-processing the spec scenario message leaves the store
unchanged, with one entry for its record. -/
theorem claim_C2_witness :
    applyEvents (applyEvents emptyStore (handleMessage 0 msgScenario))
        (handleMessage 0 msgScenario)
      = applyEvents emptyStore (handleMessage 0 msgScenario)
    ∧ (storeGet (applyEvents (applyEvents emptyStore (handleMessage 0 msgScenario))
        (handleMessage 0 msgScenario)) "site:site-001:readings").countP
        (fun e => e.1 == recScenario) = 1 :=
  ⟨(claim_C2 0 msgScenario "site:site-001:readings" recScenario 1705314600
      emptyStore (process_msgScenario 0)).1,
   (claim_C2 0 msgScenario "site:site-001:readings" recScenario 1705314600
      emptyStore (process_msgScenario 0)).2⟩

/-- C3 counterexample: a present but unparseable `power_reading` makes
`float(...)` raise — processing errors out and stores nothing (so the
message is not acknowledged), instead of storing a record with power 0. -/
theorem claim_C3_counterexample :
    process_reading 0 msgBadPower.stream_id msgBadPower.fields = .error ()
    ∧ handleMessage 0 msgBadPower = []
    ∧ applyEvents emptyStore (handleMessage 0 msgBadPower) = emptyStore
    ∧ acksOf (handleMessage 0 msgBadPower) = [] :=
  ⟨rfl, rfl, rfl, rfl⟩

/-- C3 (amended): with a non-empty `site_id`, a missing `power_reading`
defaults to a stored power of 0, but a present unparseable one raises
`ValueError`, so processing fails (and the caller will not acknowledge). -/
theorem claim_C3 (off : ℚ) :
    (∀ (stream_id : String) (data : Fields) (s : String),
      fieldGet data "site_id" = some s → s ≠ "" →
      fieldGet data "power_reading" = none →
      ∃ r sc, process_reading off stream_id data
          = .ok (some (siteKey s, r, sc)) ∧ r.power_reading = 0)
    ∧ (∀ (stream_id : String) (data : Fields) (s p : String),
      fieldGet data "site_id" = some s → s ≠ "" →
      fieldGet data "power_reading" = some p → pyFloatLit p = none →
      process_reading off stream_id data = .error ()) := by
  constructor
  · intro stream_id data s hs hne hpw
    refine ⟨⟨stream_id, s, fieldGet data "device_id", 0,
      fieldGet data "timestamp", fieldGet data "ingested_at"⟩,
      timestamp_to_score off
        (match fieldGet data "timestamp" with | some t => t | none => ""),
      ?_, rfl⟩
    simp [process_reading, hs, hne, hpw]
  · intro stream_id data s p hs hne hpw hparse
    simp [process_reading, hs, hne, hpw, hparse]

/-- C3 witness: a reading with `site_id` but no `power_reading` stores
power 0; the bad-power message errors out. -/
theorem claim_C3_witness :
    (∃ r sc, process_reading 0 "1-0" [("site_id", "s")]
        = .ok (some (siteKey "s", r, sc)) ∧ r.power_reading = 0)
    ∧ process_reading 0 msgBadPower.stream_id msgBadPower.fields = .error () :=
  ⟨(claim_C3 0).1 "1-0" [("site_id", "s")] "s" rfl (by simp) rfl,
   (claim_C3 0).2 msgBadPower.stream_id msgBadPower.fields "s" "abc"
     rfl (by simp) rfl rfl⟩

/-- C4 counterexample: a record with a valid pre-epoch event time scores
negative, so a malformed-timestamp record (score `0.0`) does not sort
before it — after storing the malformed record first and then the
pre-epoch record, `zrange` lists the valid record first. -/
theorem claim_C4_counterexample :
    awareInstant "1969-12-31T00:00:00Z" = some (-86400)
    ∧ timestamp_to_score 0 "garbage" = 0
    ∧ ((zrangeAll (storeGet (applyEvents
          (applyEvents emptyStore (handleMessage 0 msgMalformed))
          (handleMessage 0 msgPreEpoch)) "site:s:readings")).map
        (fun e => e.1.timestamp))
      = [some "1969-12-31T00:00:00Z", some "garbage"] := by
  refine ⟨awareInstant_preEpoch, rfl, ?_⟩
  have hG := handleMessage_of_success 0 msgMalformed _ _ _ (process_msgMalformed 0)
  have hA := handleMessage_of_success 0 msgPreEpoch _ _ _ (process_msgPreEpoch 0)
  rw [hG, hA]
  have hne : recMalformed ≠ recPreEpoch := by simp [recMalformed, recPreEpoch]
  have hlt : ¬ ((0 : ℚ) ≤ -86400) := by norm_num
  simp [applyEvents, applyEvent, storeZadd, zadd, storeGet, hne,
    zrangeAll, List.insertionSort, List.orderedInsert, scoreLE, hlt,
    recMalformed, recPreEpoch]

/-- C4 (amended): the score mapping is monotone — two records whose event
times denote UTC instants `a ≤ b` get scores in the same order — and a
malformed event time scores `0.0`, which sorts it before every record
whose event time is at or after the Unix epoch (valid pre-epoch event
times score negative and sort before malformed ones); `zrange` always
lists entries in ascending score order, so for any index whose scores are
the event-time scores of its records (as the processor maintains), the
listing is in ascending event-time order among timezone-aware-parseable
records, regardless of insertion order. -/
theorem claim_C4 (off : ℚ) :
    (∀ (A B : String) (a b : ℚ), awareInstant A = some a →
      awareInstant B = some b → a ≤ b →
      timestamp_to_score off A ≤ timestamp_to_score off B)
    ∧ (∀ C : String, fromisoformat (replaceZ C) = none →
      timestamp_to_score off C = 0)
    ∧ (∀ (A : String) (a : ℚ), awareInstant A = some a → 0 ≤ a →
      ∀ C : String, fromisoformat (replaceZ C) = none →
        timestamp_to_score off C ≤ timestamp_to_score off A)
    ∧ (∀ z : ZSet, (zrangeAll z).Pairwise scoreLE)
    ∧ (∀ z : ZSet,
        (∀ e ∈ z, e.2 = timestamp_to_score off ((e.1.timestamp).getD "")) →
        (zrangeAll z).Pairwise (fun p q => ∀ a b : ℚ,
          awareInstant ((p.1.timestamp).getD "") = some a →
          awareInstant ((q.1.timestamp).getD "") = some b → a ≤ b)) := by
  refine ⟨?_, ?_, ?_, ?_, ?_⟩
  · intro A B a b hA hB hab
    rw [score_of_aware off A a hA, score_of_aware off B b hB]
    exact hab
  · exact fun C hC => score_of_malformed off C hC
  · intro A a hA ha C hC
    rw [score_of_malformed off C hC, score_of_aware off A a hA]
    exact ha
  · intro z
    exact List.sorted_insertionSort scoreLE z
  · intro z hz
    have hs := List.sorted_insertionSort scoreLE z
    have hperm := List.perm_insertionSort scoreLE z
    refine List.Pairwise.imp_of_mem ?_ hs
    intro p q hp hq hle a b hpa hqb
    have hpa2 : p.2 = a :=
      (hz p (hperm.mem_iff.mp hp)).trans (score_of_aware off _ a hpa)
    have hqb2 : q.2 = b :=
      (hz q (hperm.mem_iff.mp hq)).trans (score_of_aware off _ b hqb)
    rw [← hpa2, ← hqb2]
    exact hle

/-- C4 witness: the two spellings of the scenario instant have equal
instants, so equal scores in order; the malformed string scores `0.0`. -/
theorem claim_C4_witness :
    timestamp_to_score 0 "2024-01-15T10:30:00Z"
        ≤ timestamp_to_score 0 "2024-01-15T10:30:00+00:00"
    ∧ timestamp_to_score 0 "garbage" = 0 :=
  ⟨(claim_C4 0).1 "2024-01-15T10:30:00Z" "2024-01-15T10:30:00+00:00"
      _ _ rfl rfl le_rfl,
   (claim_C4 0).2.1 "garbage" rfl⟩

/-- C7: after one consumer iteration on the spec §8 scenario message, the
site's index holds exactly one record, its power reading is 1500.5, and
the message id has been acknowledged. -/
theorem claim_C7 :
    ((zrangeAll (storeGet (applyEvents emptyStore
        (consumeIteration 0 (.ok [msgScenario]))) "site:site-001:readings")).map
      Prod.fst) = [recScenario]
    ∧ recScenario.power_reading = (1500.5 : ℚ)
    ∧ acksOf (consumeIteration 0 (.ok [msgScenario])) = ["1705312200000-0"] := by
  have h1 := handleMessage_of_success 0 msgScenario _ _ _ (process_msgScenario 0)
  have h2 : consumeIteration 0 (.ok [msgScenario]) = handleMessage 0 msgScenario := by
    simp [consumeIteration]
  rw [h2, h1]
  refine ⟨?_, ?_, rfl⟩
  · simp [applyEvents, applyEvent, storeZadd, zadd, storeGet, zrangeAll,
      List.insertionSort, List.orderedInsert]
  · show (3001 / 2 : ℚ) = 1500.5
    norm_num

end EnergyPipeline
